import Mathlib

/-!
# SetEntityDefinitionFileCommand

A shallow embedding of `common/src/Controller/SetEntityDefinitionFileCommand.cpp`.

The command mutates one property of the worldspawn entity of a map document and
fires notifiers around the write. The three member functions of the command
(`doPerformDo`, `doPerformUndo`, `doCollateWith`) and its factory are translated
statement by statement. What they call but the sources at hand do not contain
(`EntityDefinitionFileSpec`, `EntityDefinitionFileSpec::asString`,
`MapDocument::entityDefinitionFile`, `PropertyKeys::EntityDefinitions`) is taken
as a parameter, bundled in `Env`; every theorem holds for all such parameters.
The entity property store (`Entity::addOrUpdateProperty`) is modelled as an
association list.

Stateful code is written in state-passing style: an operation takes the command
object and the document and returns an `Outcome` holding the returned `bool`,
the command object and the document afterwards, and the notifier calls in
order, each paired with the document as it stood when the notifier was invoked.
-/

namespace TrenchBroom

namespace Model

/-- The type `Model::PropertyKey`: property keys are strings. -/
abbrev PropertyKey := String

/-- The type `Model::PropertyValue`: property values are strings. -/
abbrev PropertyValue := String

/-- One key-value property of an entity. -/
structure EntityProperty where
  key : PropertyKey
  value : PropertyValue
deriving DecidableEq

/-- An entity, reduced to what the command touches: its properties, in order. -/
structure Entity where
  properties : List EntityProperty
deriving DecidableEq

/-- Modelled from the spec: the body of `Entity::addOrUpdateProperty` is not among
the sources; the spec calls the operation "a simple key-value property update".
On the property list: the first property stored under `key` gets `value`
(update); when no property is stored under `key`, one is appended (add). -/
def addOrUpdate (key : PropertyKey) (value : PropertyValue) :
    List EntityProperty → List EntityProperty
  | [] => [⟨key, value⟩]
  | p :: ps => if p.key = key then ⟨key, value⟩ :: ps else p :: addOrUpdate key value ps

/-- Modelled from the spec: reading a property, the observer that goes with
`addOrUpdate`. The value of the first property stored under `key`, if any. -/
def lookup (key : PropertyKey) : List EntityProperty → Option PropertyValue
  | [] => none
  | p :: ps => if p.key = key then some p.value else lookup key ps

/-- The call `entity->addOrUpdateProperty(key, value)`. -/
def Entity.addOrUpdateProperty (e : Entity) (key : PropertyKey) (value : PropertyValue) :
    Entity :=
  { properties := addOrUpdate key value e.properties }

/-- The value an entity stores under `key`, `none` when it has no such property. -/
def Entity.property? (e : Entity) (key : PropertyKey) : Option PropertyValue :=
  lookup key e.properties

/-- The properties of an entity stored under any key but `key`, in order. -/
def Entity.propertiesExcept (e : Entity) (key : PropertyKey) : List EntityProperty :=
  e.properties.filter (fun p => decide (p.key ≠ key))

/-- What a `Model::Object*` handed to a notifier points at: the worldspawn
entity of the document, or the entity at some index of its other entities. -/
inductive ObjectRef where
  | worldspawnPtr
  | entityPtr (index : Nat)
deriving DecidableEq

end Model

namespace View

/-- The document, as far as the command can tell: it owns the worldspawn entity
and the remaining entities of the map. -/
structure MapDocument where
  worldspawnEntity : Model.Entity
  entities : List Model.Entity
deriving DecidableEq

/-- The call `document->worldspawn()`: the pointer to the worldspawn entity. -/
def MapDocument.worldspawn (_document : MapDocument) : Model.ObjectRef :=
  Model.ObjectRef.worldspawnPtr

/-- A write through an entity pointer obtained from the document. -/
def MapDocument.addOrUpdateProperty (document : MapDocument) (object : Model.ObjectRef)
    (key : Model.PropertyKey) (value : Model.PropertyValue) : MapDocument :=
  match object with
  | Model.ObjectRef.worldspawnPtr =>
    { document with
      worldspawnEntity := document.worldspawnEntity.addOrUpdateProperty key value }
  | Model.ObjectRef.entityPtr i =>
    { document with
      entities := document.entities.modify (fun e => e.addOrUpdateProperty key value) i }

/-- A notifier of the document together with the argument it is invoked with. -/
inductive Notification where
  | objectWillChangeNotifier (object : Model.ObjectRef)
  | objectDidChangeNotifier (object : Model.ObjectRef)
  | entityDefinitionsDidChangeNotifier
deriving DecidableEq

/-- One notifier invocation: which notifier with which argument, and the
document as an observer sees it at that moment. -/
structure Invocation where
  notification : Notification
  observed : MapDocument
deriving DecidableEq

end View

namespace Controller

open Model View

/-- What the command uses and the sources at hand do not define, for a type `σ`
standing for `Model::EntityDefinitionFileSpec`:
* `EntityDefinitions`: the constant `Model::PropertyKeys::EntityDefinitions`;
* `asString`: `EntityDefinitionFileSpec::asString`;
* `entityDefinitionFile`: `MapDocument::entityDefinitionFile`;
* `unset`: the default-constructed `EntityDefinitionFileSpec`. -/
structure Env (σ : Type) where
  EntityDefinitions : PropertyKey
  asString : σ → PropertyValue
  entityDefinitionFile : MapDocument → σ
  unset : σ

/-- The data members of the command object. The document it points to is
passed alongside. -/
structure SetEntityDefinitionFileCommand (σ : Type) where
  m_newSpec : σ
  m_oldSpec : σ
deriving DecidableEq

/-- What a member function leaves behind: the returned `bool`, the command
object, the document, and the notifier invocations in order. -/
structure Outcome (σ : Type) where
  result : Bool
  command : SetEntityDefinitionFileCommand σ
  document : MapDocument
  invocations : List Invocation

/-- The factory `setEntityDefinitionFileSpec(document, spec)` with the
constructor it calls: `m_newSpec(spec)`; `m_oldSpec` is default-constructed. -/
def setEntityDefinitionFileSpec {σ : Type} (E : Env σ) (spec : σ) :
    SetEntityDefinitionFileCommand σ :=
  { m_newSpec := spec, m_oldSpec := E.unset }

/-- The member function `doPerformDo`. -/
def doPerformDo {σ : Type} (E : Env σ) (self : SetEntityDefinitionFileCommand σ)
    (document : MapDocument) : Outcome σ :=
  let worldspawn := document.worldspawn
  let n₁ : Invocation := ⟨Notification.objectWillChangeNotifier worldspawn, document⟩
  let self₁ := { self with m_oldSpec := E.entityDefinitionFile document }
  let document₁ :=
    document.addOrUpdateProperty worldspawn E.EntityDefinitions (E.asString self₁.m_newSpec)
  let n₂ : Invocation := ⟨Notification.objectDidChangeNotifier worldspawn, document₁⟩
  let n₃ : Invocation := ⟨Notification.entityDefinitionsDidChangeNotifier, document₁⟩
  { result := true, command := self₁, document := document₁, invocations := [n₁, n₂, n₃] }

/-- The member function `doPerformUndo`. -/
def doPerformUndo {σ : Type} (E : Env σ) (self : SetEntityDefinitionFileCommand σ)
    (document : MapDocument) : Outcome σ :=
  let worldspawn := document.worldspawn
  let n₁ : Invocation := ⟨Notification.objectWillChangeNotifier worldspawn, document⟩
  let document₁ :=
    document.addOrUpdateProperty worldspawn E.EntityDefinitions (E.asString self.m_oldSpec)
  let n₂ : Invocation := ⟨Notification.objectDidChangeNotifier worldspawn, document₁⟩
  let n₃ : Invocation := ⟨Notification.entityDefinitionsDidChangeNotifier, document₁⟩
  { result := true, command := self, document := document₁, invocations := [n₁, n₂, n₃] }

/-- The member function `doCollateWith`; `γ` stands for `Command::Ptr`. -/
def doCollateWith {σ γ : Type} (self : SetEntityDefinitionFileCommand σ)
    (document : MapDocument) (_command : γ) : Outcome σ :=
  { result := false, command := self, document := document, invocations := [] }

/-- Undo applied to what a do left behind. -/
def doThenUndo {σ : Type} (E : Env σ) (self : SetEntityDefinitionFileCommand σ)
    (document : MapDocument) : Outcome σ :=
  let r := doPerformDo E self document
  doPerformUndo E r.command r.document

/-- Do, undo, then do again. -/
def redo {σ : Type} (E : Env σ) (self : SetEntityDefinitionFileCommand σ)
    (document : MapDocument) : Outcome σ :=
  let r := doThenUndo E self document
  doPerformDo E r.command r.document

/-- Do, undo, do, then undo again. -/
def redoThenUndo {σ : Type} (E : Env σ) (self : SetEntityDefinitionFileCommand σ)
    (document : MapDocument) : Outcome σ :=
  let r := redo E self document
  doPerformUndo E r.command r.document

/-- Reading the entity definition file of a document after `spec.asString()` was
written to worldspawn under `EntityDefinitions` yields `spec`. -/
def ReadsBackWritten {σ : Type} (E : Env σ) : Prop :=
  ∀ (document : MapDocument) (spec : σ),
    E.entityDefinitionFile
      (document.addOrUpdateProperty document.worldspawn E.EntityDefinitions (E.asString spec))
      = spec

/-! ### A concrete instance, for evaluation on examples -/

/-- An instance of `Env` in which a spec is its own string form, the key is
`"_def"`, and the entity definition file of a document is the value worldspawn
stores under that key, the empty string when it stores none. -/
def stringEnv : Env String where
  EntityDefinitions := "_def"
  asString := fun s => s
  entityDefinitionFile := fun d => (d.worldspawnEntity.property? "_def").getD ""
  unset := ""

/-- A document whose worldspawn has no entity-definitions property. -/
def bareDocument : MapDocument where
  worldspawnEntity := ⟨[⟨"classname", "worldspawn"⟩]⟩
  entities := [⟨[⟨"classname", "light"⟩, ⟨"_def", "lights.def"⟩]⟩]

/-- A document whose worldspawn has an entity-definitions property. -/
def quakeDocument : MapDocument where
  worldspawnEntity := ⟨[⟨"classname", "worldspawn"⟩, ⟨"_def", "Quake.fgd"⟩, ⟨"wad", "id.wad"⟩]⟩
  entities := [⟨[⟨"classname", "light"⟩, ⟨"_def", "lights.def"⟩]⟩]

/-! ### The property store -/

theorem lookup_addOrUpdate_self (key : PropertyKey) (value : PropertyValue)
    (ps : List EntityProperty) : lookup key (addOrUpdate key value ps) = some value := by
  induction ps with
  | nil => simp [addOrUpdate, lookup]
  | cons p ps ih =>
    by_cases h : p.key = key
    · simp [addOrUpdate, lookup, h]
    · simp [addOrUpdate, lookup, h, ih]

theorem lookup_addOrUpdate_of_ne (key other : PropertyKey) (value : PropertyValue)
    (ps : List EntityProperty) (hne : other ≠ key) :
    lookup other (addOrUpdate key value ps) = lookup other ps := by
  induction ps with
  | nil => simp [addOrUpdate, lookup, Ne.symm hne]
  | cons p ps ih =>
    by_cases h : p.key = key
    · have h2 : ¬ p.key = other := fun h3 => hne (h3.symm.trans h)
      simp [addOrUpdate, lookup, h, h2, Ne.symm hne]
    · by_cases h2 : p.key = other
      · simp [addOrUpdate, lookup, h, h2, hne]
      · simp [addOrUpdate, lookup, h, h2, ih]

theorem filter_addOrUpdate (key : PropertyKey) (value : PropertyValue)
    (ps : List EntityProperty) :
    (addOrUpdate key value ps).filter (fun p => decide (p.key ≠ key))
      = ps.filter (fun p => decide (p.key ≠ key)) := by
  induction ps with
  | nil => simp [addOrUpdate]
  | cons p ps ih =>
    by_cases h : p.key = key
    · simp [addOrUpdate, h]
    · simp only [addOrUpdate, if_neg h, List.filter_cons, ih]

theorem addOrUpdate_addOrUpdate (key : PropertyKey) (v w : PropertyValue)
    (ps : List EntityProperty) :
    addOrUpdate key v (addOrUpdate key w ps) = addOrUpdate key v ps := by
  induction ps with
  | nil => simp [addOrUpdate]
  | cons p ps ih =>
    by_cases h : p.key = key
    · simp [addOrUpdate, h]
    · simp [addOrUpdate, h, ih]

theorem addOrUpdate_of_lookup (key : PropertyKey) (value : PropertyValue)
    (ps : List EntityProperty) (h : lookup key ps = some value) :
    addOrUpdate key value ps = ps := by
  induction ps with
  | nil => simp [lookup] at h
  | cons p ps ih =>
    by_cases hk : p.key = key
    · simp [lookup, hk] at h
      cases p
      simp_all [addOrUpdate]
    · simp [lookup, hk] at h
      simp [addOrUpdate, hk, ih h]

theorem length_addOrUpdate_of_lookup_none (key : PropertyKey) (value : PropertyValue)
    (ps : List EntityProperty) (h : lookup key ps = none) :
    (addOrUpdate key value ps).length = ps.length + 1 := by
  induction ps with
  | nil => simp [addOrUpdate]
  | cons p ps ih =>
    by_cases hk : p.key = key
    · simp [lookup, hk] at h
    · simp [lookup, hk] at h
      simp [addOrUpdate, hk, ih h]

/-! ### What one operation does to the document -/

theorem doPerformDo_document {σ : Type} (E : Env σ) (self : SetEntityDefinitionFileCommand σ)
    (document : MapDocument) :
    (doPerformDo E self document).document =
      { worldspawnEntity :=
          ⟨addOrUpdate E.EntityDefinitions (E.asString self.m_newSpec)
            document.worldspawnEntity.properties⟩,
        entities := document.entities } := rfl

theorem doPerformUndo_document {σ : Type} (E : Env σ) (self : SetEntityDefinitionFileCommand σ)
    (document : MapDocument) :
    (doPerformUndo E self document).document =
      { worldspawnEntity :=
          ⟨addOrUpdate E.EntityDefinitions (E.asString self.m_oldSpec)
            document.worldspawnEntity.properties⟩,
        entities := document.entities } := rfl

theorem doThenUndo_document_eq {σ : Type} (E : Env σ) (self : SetEntityDefinitionFileCommand σ)
    (document : MapDocument) :
    (doThenUndo E self document).document =
      { worldspawnEntity :=
          ⟨addOrUpdate E.EntityDefinitions (E.asString (E.entityDefinitionFile document))
            document.worldspawnEntity.properties⟩,
        entities := document.entities } := by
  simp only [doThenUndo, doPerformUndo_document, doPerformDo_document, addOrUpdate_addOrUpdate]
  rfl

/-- Whatever `Env` is chosen, do followed by undo does not give back a document
whose worldspawn had no property under `EntityDefinitions`. -/
theorem doThenUndo_ne_of_absent {σ : Type} (E : Env σ) (self : SetEntityDefinitionFileCommand σ)
    (document : MapDocument)
    (h : document.worldspawnEntity.property? E.EntityDefinitions = none) :
    (doThenUndo E self document).document ≠ document := by
  intro heq
  have hlen := congrArg (fun d => d.worldspawnEntity.properties.length) heq
  rw [doThenUndo_document_eq] at hlen
  simp only at hlen
  rw [length_addOrUpdate_of_lookup_none _ _ _ h] at hlen
  omega

/-! ### Do followed by undo -/

/-- C1, as amended. Do followed by undo leaves worldspawn with a property under
`EntityDefinitions` whose value is the string form of the entity definition file
the document had before the command; the other properties of worldspawn and all
other entities are as before. The document is restored exactly whenever
worldspawn stored that very string under the key before the command. -/
theorem doThenUndo_restores {σ : Type} (E : Env σ) (self : SetEntityDefinitionFileCommand σ)
    (document : MapDocument) :
    (doThenUndo E self document).document.worldspawnEntity.property? E.EntityDefinitions
        = some (E.asString (E.entityDefinitionFile document))
      ∧ (doThenUndo E self document).document.worldspawnEntity.propertiesExcept
            E.EntityDefinitions
          = document.worldspawnEntity.propertiesExcept E.EntityDefinitions
      ∧ (doThenUndo E self document).document.entities = document.entities
      ∧ (document.worldspawnEntity.property? E.EntityDefinitions
            = some (E.asString (E.entityDefinitionFile document)) →
          (doThenUndo E self document).document = document) := by
  rw [doThenUndo_document_eq]
  refine ⟨?_, ?_, rfl, ?_⟩
  · exact lookup_addOrUpdate_self _ _ _
  · exact filter_addOrUpdate _ _ _
  · intro h
    have h2 := addOrUpdate_of_lookup _ _ _ h
    cases document with
    | mk w es =>
      cases w with
      | mk ps => simp only at h2 ⊢; rw [h2]

/-- C1, witness: on a document whose worldspawn stores `"Quake.fgd"` under the
key, do followed by undo gives the document back. -/
theorem doThenUndo_restores_witness :
    quakeDocument.worldspawnEntity.property? stringEnv.EntityDefinitions
        = some (stringEnv.asString (stringEnv.entityDefinitionFile quakeDocument))
      ∧ (doThenUndo stringEnv (setEntityDefinitionFileSpec stringEnv "Quake2.fgd")
          quakeDocument).document = quakeDocument :=
  ⟨by decide,
   (doThenUndo_restores stringEnv (setEntityDefinitionFileSpec stringEnv "Quake2.fgd")
      quakeDocument).2.2.2 (by decide)⟩

/-- C1, refuted as stated: worldspawn of `bareDocument` has no property under
`EntityDefinitions`; after do followed by undo it has one (holding the string
form of the entity definition file read before the command), so the document
is not the one the command started from. -/
theorem doThenUndo_bareDocument_not_restored :
    bareDocument.worldspawnEntity.property? stringEnv.EntityDefinitions = none
      ∧ (doThenUndo stringEnv (setEntityDefinitionFileSpec stringEnv "Quake2.fgd")
          bareDocument).document.worldspawnEntity.property? stringEnv.EntityDefinitions
          = some ""
      ∧ (doThenUndo stringEnv (setEntityDefinitionFileSpec stringEnv "Quake2.fgd")
          bareDocument).document ≠ bareDocument := by
  decide

/-! ### Collation and return values -/

/-- C2. `doCollateWith` returns `false` for every command handed to it and
changes neither the stored specs of the receiving command nor the document. -/
theorem doCollateWith_never_collates {σ γ : Type} (self : SetEntityDefinitionFileCommand σ)
    (document : MapDocument) (command : γ) :
    (doCollateWith self document command).result = false
      ∧ (doCollateWith self document command).command.m_oldSpec = self.m_oldSpec
      ∧ (doCollateWith self document command).command.m_newSpec = self.m_newSpec
      ∧ (doCollateWith self document command).document = document
      ∧ (doCollateWith self document command).invocations = [] :=
  ⟨rfl, rfl, rfl, rfl, rfl⟩

/-- C3. `doPerformDo` and `doPerformUndo` return `true` for every command state
and every document; each is a total function with no other return value. -/
theorem doPerform_returns_true {σ : Type} (E : Env σ) (self : SetEntityDefinitionFileCommand σ)
    (document : MapDocument) :
    (doPerformDo E self document).result = true
      ∧ (doPerformUndo E self document).result = true :=
  ⟨rfl, rfl⟩

/-! ### The write and the snapshot -/

/-- C4. After `doPerformDo` on the command made by `setEntityDefinitionFileSpec`
for `spec`, worldspawn has a property under `EntityDefinitions` and its value is
`spec.asString()`, whatever worldspawn stored before. -/
theorem doPerformDo_writes_newSpec {σ : Type} (E : Env σ) (spec : σ) (document : MapDocument) :
    (doPerformDo E (setEntityDefinitionFileSpec E spec) document).document.worldspawnEntity.property?
        E.EntityDefinitions
      = some (E.asString spec) := by
  rw [doPerformDo_document]
  exact lookup_addOrUpdate_self _ _ _

/-- C5. The old spec stored by `doPerformDo` is the entity definition file of the
document as it was before the write, and `doPerformUndo` writes the string form
of the stored old spec to worldspawn under `EntityDefinitions`; so undo after do
writes the string form of that snapshot. -/
theorem doPerformDo_snapshots_oldSpec {σ : Type} (E : Env σ)
    (self : SetEntityDefinitionFileCommand σ) (document : MapDocument) :
    (doPerformDo E self document).command.m_oldSpec = E.entityDefinitionFile document
      ∧ (doPerformUndo E self document).document
          = document.addOrUpdateProperty document.worldspawn E.EntityDefinitions
              (E.asString self.m_oldSpec)
      ∧ (doPerformUndo E self document).document.worldspawnEntity.property? E.EntityDefinitions
          = some (E.asString self.m_oldSpec)
      ∧ (doThenUndo E self document).document
          = (doPerformDo E self document).document.addOrUpdateProperty
              (doPerformDo E self document).document.worldspawn E.EntityDefinitions
              (E.asString (E.entityDefinitionFile document)) := by
  refine ⟨rfl, rfl, ?_, rfl⟩
  rw [doPerformUndo_document]
  exact lookup_addOrUpdate_self _ _ _

/-! ### Notifiers -/

/-- C6. The notifiers `doPerformUndo` invokes, with their arguments and in their
order, are those `doPerformDo` invokes: `objectWillChangeNotifier(worldspawn)`,
`objectDidChangeNotifier(worldspawn)`, `entityDefinitionsDidChangeNotifier()`,
whatever the command state and the document each of the two runs on. -/
theorem doPerformUndo_notifies_as_doPerformDo {σ : Type} (E : Env σ)
    (self self' : SetEntityDefinitionFileCommand σ) (document document' : MapDocument) :
    (doPerformUndo E self' document').invocations.map Invocation.notification
        = (doPerformDo E self document).invocations.map Invocation.notification
      ∧ (doPerformDo E self document).invocations.map Invocation.notification
        = [Notification.objectWillChangeNotifier ObjectRef.worldspawnPtr,
           Notification.objectDidChangeNotifier ObjectRef.worldspawnPtr,
           Notification.entityDefinitionsDidChangeNotifier] :=
  ⟨rfl, rfl⟩

/-- C8. In `doPerformDo` and in `doPerformUndo`, `objectWillChangeNotifier(worldspawn)`
is invoked on the document as it was before the operation, and
`objectDidChangeNotifier(worldspawn)` and then `entityDefinitionsDidChangeNotifier()`
on the document as the operation leaves it, in which the property under
`EntityDefinitions` holds the written value; no other state is observed. -/
theorem notifiers_observe_before_and_after {σ : Type} (E : Env σ)
    (self : SetEntityDefinitionFileCommand σ) (document : MapDocument) :
    ((doPerformDo E self document).invocations
        = [⟨Notification.objectWillChangeNotifier document.worldspawn, document⟩,
           ⟨Notification.objectDidChangeNotifier document.worldspawn,
             (doPerformDo E self document).document⟩,
           ⟨Notification.entityDefinitionsDidChangeNotifier,
             (doPerformDo E self document).document⟩]
      ∧ (doPerformDo E self document).document.worldspawnEntity.property? E.EntityDefinitions
          = some (E.asString self.m_newSpec))
    ∧ ((doPerformUndo E self document).invocations
        = [⟨Notification.objectWillChangeNotifier document.worldspawn, document⟩,
           ⟨Notification.objectDidChangeNotifier document.worldspawn,
             (doPerformUndo E self document).document⟩,
           ⟨Notification.entityDefinitionsDidChangeNotifier,
             (doPerformUndo E self document).document⟩]
      ∧ (doPerformUndo E self document).document.worldspawnEntity.property? E.EntityDefinitions
          = some (E.asString self.m_oldSpec)) := by
  refine ⟨⟨rfl, ?_⟩, ⟨rfl, ?_⟩⟩
  · rw [doPerformDo_document]
    exact lookup_addOrUpdate_self _ _ _
  · rw [doPerformUndo_document]
    exact lookup_addOrUpdate_self _ _ _

/-! ### Frame -/

/-- C9. `doPerformDo` and `doPerformUndo` leave every property of worldspawn
stored under a key other than `EntityDefinitions` as it was, leave every other
entity as it was, and leave `m_newSpec` as it was; `doPerformUndo` also leaves
`m_oldSpec` as it was. -/
theorem doPerform_frame {σ : Type} (E : Env σ) (self : SetEntityDefinitionFileCommand σ)
    (document : MapDocument) :
    ((∀ key : PropertyKey, key ≠ E.EntityDefinitions →
          (doPerformDo E self document).document.worldspawnEntity.property? key
            = document.worldspawnEntity.property? key)
      ∧ (doPerformDo E self document).document.worldspawnEntity.propertiesExcept
            E.EntityDefinitions
          = document.worldspawnEntity.propertiesExcept E.EntityDefinitions
      ∧ (doPerformDo E self document).document.entities = document.entities
      ∧ (doPerformDo E self document).command.m_newSpec = self.m_newSpec)
    ∧ ((∀ key : PropertyKey, key ≠ E.EntityDefinitions →
          (doPerformUndo E self document).document.worldspawnEntity.property? key
            = document.worldspawnEntity.property? key)
      ∧ (doPerformUndo E self document).document.worldspawnEntity.propertiesExcept
            E.EntityDefinitions
          = document.worldspawnEntity.propertiesExcept E.EntityDefinitions
      ∧ (doPerformUndo E self document).document.entities = document.entities
      ∧ (doPerformUndo E self document).command.m_newSpec = self.m_newSpec
      ∧ (doPerformUndo E self document).command.m_oldSpec = self.m_oldSpec) := by
  refine ⟨⟨?_, ?_, rfl, rfl⟩, ⟨?_, ?_, rfl, rfl, rfl⟩⟩
  · intro key hne
    rw [doPerformDo_document]
    exact lookup_addOrUpdate_of_ne _ _ _ _ hne
  · rw [doPerformDo_document]
    exact filter_addOrUpdate _ _ _
  · intro key hne
    rw [doPerformUndo_document]
    exact lookup_addOrUpdate_of_ne _ _ _ _ hne
  · rw [doPerformUndo_document]
    exact filter_addOrUpdate _ _ _

/-! ### Redo -/

theorem stringEnv_readsBackWritten : ReadsBackWritten stringEnv := by
  intro document spec
  show (lookup "_def" (addOrUpdate "_def" spec document.worldspawnEntity.properties)).getD ""
    = spec
  rw [lookup_addOrUpdate_self]
  rfl

/-- C10. When reading the entity definition file of a document after
`spec.asString()` was written yields `spec`: do, undo, do leaves the document as
a single do leaves it, with the property under `EntityDefinitions` equal to
`m_newSpec.asString()`; the second do snapshots the old spec the first one
snapshotted; and a further undo leaves the document as the first undo left it. -/
theorem redo_stable {σ : Type} (E : Env σ) (self : SetEntityDefinitionFileCommand σ)
    (document : MapDocument) (h : ReadsBackWritten E) :
    (redo E self document).document.worldspawnEntity.property? E.EntityDefinitions
        = some (E.asString self.m_newSpec)
      ∧ (redo E self document).document = (doPerformDo E self document).document
      ∧ (redo E self document).command.m_oldSpec = (doPerformDo E self document).command.m_oldSpec
      ∧ (redo E self document).command.m_newSpec = self.m_newSpec
      ∧ (redoThenUndo E self document).document = (doThenUndo E self document).document := by
  have hdoc : (redo E self document).document = (doPerformDo E self document).document := by
    simp only [redo, doThenUndo, doPerformUndo_document, doPerformDo_document,
      addOrUpdate_addOrUpdate]
    rfl
  have hold : (redo E self document).command.m_oldSpec
      = (doPerformDo E self document).command.m_oldSpec :=
    h (doPerformDo E self document).document (E.entityDefinitionFile document)
  refine ⟨?_, hdoc, hold, rfl, ?_⟩
  · rw [hdoc, doPerformDo_document]
    exact lookup_addOrUpdate_self _ _ _
  · show (doPerformUndo E (redo E self document).command (redo E self document).document).document
      = (doPerformUndo E (doPerformDo E self document).command
          (doPerformDo E self document).document).document
    rw [doPerformUndo_document, doPerformUndo_document, hdoc, hold]

/-- C10, witness: on `bareDocument`, with a spec that is its own string form. -/
theorem redo_stable_witness :
    ReadsBackWritten stringEnv
      ∧ (redo stringEnv (setEntityDefinitionFileSpec stringEnv "Quake2.fgd")
          bareDocument).command.m_oldSpec = ""
      ∧ (redoThenUndo stringEnv (setEntityDefinitionFileSpec stringEnv "Quake2.fgd")
          bareDocument).document
        = (doThenUndo stringEnv (setEntityDefinitionFileSpec stringEnv "Quake2.fgd")
          bareDocument).document :=
  ⟨stringEnv_readsBackWritten,
   (redo_stable stringEnv (setEntityDefinitionFileSpec stringEnv "Quake2.fgd") bareDocument
      stringEnv_readsBackWritten).2.2.1,
   (redo_stable stringEnv (setEntityDefinitionFileSpec stringEnv "Quake2.fgd") bareDocument
      stringEnv_readsBackWritten).2.2.2.2⟩

end Controller

end TrenchBroom
